import Mathlib

/-
Verification of the MIMPI message-passing library core (mimpi.c, mimpi_common.h,
mimpirun.c) against its natural-language specification.  The definitions below
are a shallow embedding of the C source: each definition's doc comment names the
source function and lines it is translated from.  Machine integers (C `int`)
are modelled as `Int`; byte buffers as `List Nat` with lanes < 256 where the
source uses `u_int8_t`.
-/

namespace MIMPI

/-! ## Tag constants (mimpi.c lines 59-72, `MIMPI_Tags` enum) -/

/-- MIMPI_ANY_TAG, the receive-side wildcard (mimpi.h; equals MIMPI_DEFAULT_TAG = -1). -/
def MIMPI_ANY_TAG : Int := -1

/-- MIMPI_NO_MESSAGE_TAG = -2, barrier / sync carrier (mimpi.c line 63). -/
def MIMPI_NO_MESSAGE_TAG : Int := -2

/-- MIMPI_BROADCAST_TAG = -3 (mimpi.c line 64). -/
def MIMPI_BROADCAST_TAG : Int := -3

/-- MIMPI_DEADLOCK_TAG = -4 (mimpi.c line 65). -/
def MIMPI_DEADLOCK_TAG : Int := -4

/-- MIMPI_WAITING_TAG = -5 (mimpi.c line 66). -/
def MIMPI_WAITING_TAG : Int := -5

/-- MIMPI_RECEIVED_TAG = -6 (mimpi.c line 67). -/
def MIMPI_RECEIVED_TAG : Int := -6

/-- MIMPI_MAX_TAG = -7, reduce MAX carrier (mimpi.c line 68). -/
def MIMPI_MAX_TAG : Int := -7

/-- MIMPI_MIN_TAG = -8, reduce MIN carrier (mimpi.c line 69). -/
def MIMPI_MIN_TAG : Int := -8

/-- MIMPI_SUM_TAG = -9, reduce SUM carrier (mimpi.c line 70). -/
def MIMPI_SUM_TAG : Int := -9

/-- MIMPI_PROD_TAG = -10, reduce PROD carrier (mimpi.c line 71). -/
def MIMPI_PROD_TAG : Int := -10

/-- MIMPI_DEFAULT_COUNT = -1, count used with special messages (mimpi.c line 45). -/
def MIMPI_DEFAULT_COUNT : Int := -1

/-! ## Return codes (mimpi.h, `MIMPI_Retcode`) -/

/-- Return codes of the public MIMPI operations (mimpi.h `MIMPI_Retcode`). -/
inductive Retcode where
  | success
  | errorAttemptedSelfOp
  | errorNoSuchRank
  | errorDeadlockDetected
  | errorRemoteFinished
deriving DecidableEq, Repr

/-! ## Messages and queues (mimpi.c lines 75-312) -/

/-- In-memory message header as used for matching: the `tag`, `count` and
`source` fields of `struct Message` (mimpi.c lines 76-82).  The payload
pointer and the `received` flag are modelled separately where needed. -/
structure Message where
  tag : Int
  count : Int
  source : Int
deriving DecidableEq, Repr

/-- compare_message (mimpi.c lines 169-174): two messages match when sources
and counts are equal and either the filter tag is MIMPI_ANY_TAG or the tags
are equal.  `a` is the queued message, `b` the filter. -/
def compare_message (a b : Message) : Bool :=
  a.source == b.source && a.count == b.count &&
    (b.tag == MIMPI_ANY_TAG || a.tag == b.tag)

/-- Modelled from the spec (section 4.2): the match predicate as the
specification words it, where ANY_TAG matches only non-negative tags.  Kept
distinct from `compare_message` (the code) for the refinement comparison of
claim C2. -/
def spec_match (a b : Message) : Bool :=
  a.source == b.source && a.count == b.count &&
    (a.tag == b.tag || (b.tag == MIMPI_ANY_TAG && decide (0 ≤ a.tag)))

/-- find_elem_in_list (mimpi.c lines 279-294): scan the queue from the oldest
element (the C list iterates from `tail->next`; `push_front` appends at the
head sentinel, so iteration order is arrival order) and return the first
message matching the filter, if any. -/
def find_elem_in_list (l : List Message) (to_compare : Message) : Option Message :=
  l.find? (fun m => compare_message m to_compare)

/-- Removal of the first element matching a filter, the effect of
`remove_from_list (find_elem_in_list l cmp)` (mimpi.c lines 236-249) on the
queue when a match exists. -/
def remove_first_match (l : List Message) (to_compare : Message) : List Message :=
  match l with
  | [] => []
  | m :: ms =>
      if compare_message m to_compare then ms else m :: remove_first_match ms to_compare

/-! ## Binomial-tree neighbour computation (mimpi.c lines 426-515) -/

/-- get_power (mimpi.c lines 426-433): the hard-coded table
`rank<=1 -> rank; rank<=3 -> 2; rank<=7 -> 4; else 8`. -/
def get_power (rank : Int) : Int :=
  if rank ≤ 1 then rank
  else if rank ≤ 3 then 2
  else if rank ≤ 7 then 4
  else 8

/-- Child enumeration loop of communication_loop (mimpi.c lines 472-479 and
504-511): starting from `start_from` with step `power`, emit the current value
while `< world_size`, then advance by `power` and double `power`.  `fuel`
bounds the recursion; 32 iterations are ample for every configuration with
`world_size ≤ 16` and positive `power`. -/
def children_aux (fuel : Nat) (start_from power world_size : Int) : List Int :=
  match fuel with
  | 0 => []
  | fuel + 1 =>
      if start_from < world_size then
        start_from :: children_aux fuel (start_from + power) (power * 2) world_size
      else []

/-- Parent rank computed by communication_loop for a rank that is neither the
root nor 0 (mimpi.c line 457): `receive_from = world_rank - get_power(world_rank)`,
before the root-swap relabelling of lines 482-487 / 494-499. -/
def loop_parent (k : Int) : Int := k - get_power k

/-- Children ranks enumerated by communication_loop for a rank that is neither
the root nor 0 (mimpi.c lines 458-459 and the loop at 472-479):
`power = get_power(world_rank) * 2; start_from = world_rank + power`, before
the `helper` relabelling of line 473. -/
def loop_children (k world_size : Int) : List Int :=
  children_aux 32 (k + get_power k * 2) (get_power k * 2) world_size

/-- Modelled from the spec (glossary): `LP(k)`, the largest power of two
dividing k (`k & -k`), with LP(0) = 0.  Spec-side definition used for the
refinement comparison of claim C1. -/
def spec_LP (k : Int) : Int :=
  if k ≤ 0 then 0 else ((k.toNat - (k.toNat &&& (k.toNat - 1)) : Nat) : Int)

/-- Modelled from the spec of claim C1: the children list the spec describes,
`k + LP(k)·2^i` for i = 0,1,... while still < W. -/
def spec_children_LP (k world_size : Int) : List Int :=
  ((List.range 8).map (fun i => k + spec_LP k * 2 ^ i)).takeWhile
    (fun c => decide (c < world_size))

/-- Highest power of two not exceeding n (2 ^ ⌊log2 n⌋), with 0 for n = 0:
the value the table `get_power` actually implements.  Computed structurally
(valid for every n < 2^16, far beyond the world-size bound of 16) so that
concrete instances reduce by evaluation. -/
def msb_power (n : Nat) : Nat :=
  (List.range 16).foldl (fun acc j => if 2 ^ j ≤ n then 2 ^ j else acc) 0

/-- The children list as the code actually produces it, in closed form:
`k + msb_power(k)·2^(i+1)` for i = 0,1,... while still < W. -/
def spec_children_msb (k world_size : Int) : List Int :=
  ((List.range 8).map (fun i => k + (msb_power k.toNat : Int) * 2 ^ (i + 1))).takeWhile
    (fun c => decide (c < world_size))

/-! ## Reduce combine step (mimpi.c lines 386-417) -/

/-- Per-lane combine of handle_reduce_operation (mimpi.c lines 395-414),
dispatching on the carrier tag: MAX and MIN on unsigned 8-bit lanes, SUM and
PROD wrapping modulo 256 (`u_int8_t` arithmetic).  The final `else` branch of
the C code is PROD.  `a` is the lane of `data`, `b` the lane of
`received_data`. -/
def reduce_combine (tag : Int) (a b : Nat) : Nat :=
  if tag = MIMPI_MAX_TAG then max a b
  else if tag = MIMPI_MIN_TAG then min a b
  else if tag = MIMPI_SUM_TAG then (a + b) % 256
  else (a * b) % 256

/-- handle_reduce_operation (mimpi.c lines 386-417): for i < count,
`data[i] = op(data[i], received_data[i])` componentwise; count equals the
length of both buffers. -/
def handle_reduce_operation (received_data : List Nat) (tag : Int) (data : List Nat) :
    List Nat :=
  List.zipWith (reduce_combine tag) data received_data

/-- Folding a sequence of received contributions into an accumulator with
handle_reduce_operation, as the up-phase of MIMPI_Reduce does at a non-leaf
node (mimpi.c lines 471-479 with reduce tags, via MIMPI_Recv line 921). -/
def reduce_fold (tag : Int) (contributions : List (List Nat)) (init : List Nat) :
    List Nat :=
  contributions.foldl (fun acc c => handle_reduce_operation c tag acc) init

/-! ## Wire frames (mimpi.c lines 776-795 and 552-569) -/

/-- Serialization of a C `int` into its four bytes, least significant first
(two's complement, as `memcpy(to_send, &count, sizeof(int))` lays it out on a
little-endian host; mimpi.c lines 783-784). -/
def encode_int32 (x : Int) : List Nat :=
  [(x % 4294967296).toNat % 256,
   (x % 4294967296).toNat / 256 % 256,
   (x % 4294967296).toNat / 65536 % 256,
   (x % 4294967296).toNat / 16777216 % 256]

/-- Decoding four bytes back into a C `int` (two's complement), as
`memcpy(&count, info, sizeof(int))` does in handle_channel
(mimpi.c lines 553-554). -/
def decode_int32 (b0 b1 b2 b3 : Nat) : Int :=
  if b0 + 256 * b1 + 65536 * b2 + 16777216 * b3 < 2147483648 then
    ((b0 + 256 * b1 + 65536 * b2 + 16777216 * b3 : Nat) : Int)
  else
    ((b0 + 256 * b1 + 65536 * b2 + 16777216 * b3 : Nat) : Int) - 4294967296

/-- Reading one 4-byte integer off the front of a byte stream; `none` models
EOF before 4 bytes arrive (read_from_channel, mimpi.c lines 322-349). -/
def read_int32 (s : List Nat) : Option (Int × List Nat) :=
  match s with
  | b0 :: b1 :: b2 :: b3 :: rest => some (decode_int32 b0 b1 b2 b3, rest)
  | _ => none

/-- Payload-bearing test used identically by MIMPI_Send (mimpi.c line 779) and
handle_channel (line 563): every tag other than MIMPI_NO_MESSAGE_TAG and
MIMPI_DEADLOCK_TAG carries a body of `count` bytes. -/
def payload_bearing (tag : Int) : Bool :=
  tag != MIMPI_NO_MESSAGE_TAG && tag != MIMPI_DEADLOCK_TAG

/-- Frame built by MIMPI_Send (mimpi.c lines 776-795): 4 bytes of `count`,
4 bytes of `tag`, then the payload iff the tag is payload-bearing. -/
def send_frame (count tag : Int) (payload : List Nat) : List Nat :=
  if payload_bearing tag then
    encode_int32 count ++ encode_int32 tag ++ payload
  else
    encode_int32 count ++ encode_int32 tag

/-- Frame decoding as handle_channel performs it (mimpi.c lines 533-569): read
an 8-byte header, decode `count` then `tag`, and read a `count`-byte body
exactly when the tag is payload-bearing.  Returns the decoded header, the
optional body, and the rest of the stream; `none` models EOF mid-frame. -/
def read_frame (s : List Nat) : Option (Int × Int × Option (List Nat) × List Nat) :=
  (read_int32 s).bind (fun cs =>
    ((read_int32 cs.2).bind (fun ts =>
      if payload_bearing ts.1 then
        if cs.1.toNat ≤ ts.2.length then
          some (cs.1, ts.1, some (ts.2.take cs.1.toNat), ts.2.drop cs.1.toNat)
        else none
      else some (cs.1, ts.1, none, ts.2))))

/-! ## Point-to-point models (mimpi.c lines 747-931) -/

/-- Outcome of a modelled call to MIMPI_Recv: either a return code, or
`blocked` when the code would park on the condition variable with no thread
left to wake it. -/
inductive RecvOutcome where
  | ret (r : Retcode)
  | blocked
deriving DecidableEq, Repr

/-- Shared state visible to one MIMPI_Recv call naming a fixed peer `source`,
after the reader thread for that peer has exited (so the state is no longer
mutated concurrently): the per-peer queues, the `MIMPI_already_left[source]`
flag, the deadlock-detection switch, and whether writes on the outbound
channel to `source` still succeed. -/
structure RecvState where
  receivedQueue : List Message
  othersRecv : List Message
  alreadyLeft : Bool
  deadlockEnabled : Bool
  writeOk : Bool
deriving DecidableEq, Repr

/-- MIMPI_Send rank checking and frame emission (mimpi.c lines 747-806):
CHECK_RANK_ERROR then CHECK_SELF_OP_ERROR (lines 753-754), then the frame of
`send_frame` is written; a failed write yields MIMPI_ERROR_REMOTE_FINISHED
(line 800).  The second component is the byte sequence handed to
write_to_channel — empty when the call returns before any communication. -/
def MIMPI_Send_model (world_size world_rank destination tag count : Int)
    (payload : List Nat) (writeOk : Bool) : Retcode × List Nat :=
  if destination < 0 ∨ world_size ≤ destination then (Retcode.errorNoSuchRank, [])
  else if destination = world_rank then (Retcode.errorAttemptedSelfOp, [])
  else if writeOk then (Retcode.success, send_frame count tag payload)
  else (Retcode.errorRemoteFinished, send_frame count tag payload)

/-- MIMPI_Recv (mimpi.c lines 809-931) as a sequential function of a frozen
`RecvState` (no reader interference; exact when the reader for `source` has
exited, i.e. when `alreadyLeft` holds).  Path by path:
rank checks (lines 815-816); scan of the received queue (lines 820-822); on a
hit, dequeue and return success (lines 896-905, 930); on a miss, park
`MIMPI_waiting` (827-829); with deadlock detection on and a user tag, return
deadlock-detected if the head of `others_recv[source]` carries a user tag
(831-843), else emit WAITING and return remote-finished if that write fails
(845-858); the condvar loop (863-865) blocks iff nothing wakes it, i.e. iff
`alreadyLeft` is false in the frozen state; after the loop, the
`waiting.tag == MIMPI_DEADLOCK_TAG` test (867-873) and the peer-closed test
(875-879).  The second component is the received queue after the call. -/
def MIMPI_Recv_model (world_size world_rank count source tag : Int)
    (s : RecvState) : RecvOutcome × List Message :=
  if source < 0 ∨ world_size ≤ source then
    (RecvOutcome.ret Retcode.errorNoSuchRank, s.receivedQueue)
  else if source = world_rank then
    (RecvOutcome.ret Retcode.errorAttemptedSelfOp, s.receivedQueue)
  else
    match find_elem_in_list s.receivedQueue ⟨tag, count, source⟩ with
    | some _ =>
        (RecvOutcome.ret Retcode.success,
         remove_first_match s.receivedQueue ⟨tag, count, source⟩)
    | none =>
        -- waiting parked with this call's (tag, count, source), received = false
        if s.deadlockEnabled ∧ MIMPI_ANY_TAG ≤ tag then
          match s.othersRecv.head? with
          | some msg =>
              if MIMPI_ANY_TAG ≤ msg.tag then
                (RecvOutcome.ret Retcode.errorDeadlockDetected, s.receivedQueue)
              else if ¬ s.writeOk then
                (RecvOutcome.ret Retcode.errorRemoteFinished, s.receivedQueue)
              else if ¬ s.alreadyLeft then
                (RecvOutcome.blocked, s.receivedQueue)
              else if tag = MIMPI_DEADLOCK_TAG then
                (RecvOutcome.ret Retcode.errorDeadlockDetected, s.receivedQueue)
              else
                (RecvOutcome.ret Retcode.errorRemoteFinished, s.receivedQueue)
          | none =>
              if ¬ s.writeOk then
                (RecvOutcome.ret Retcode.errorRemoteFinished, s.receivedQueue)
              else if ¬ s.alreadyLeft then
                (RecvOutcome.blocked, s.receivedQueue)
              else if tag = MIMPI_DEADLOCK_TAG then
                (RecvOutcome.ret Retcode.errorDeadlockDetected, s.receivedQueue)
              else
                (RecvOutcome.ret Retcode.errorRemoteFinished, s.receivedQueue)
        else
          if ¬ s.alreadyLeft then
            (RecvOutcome.blocked, s.receivedQueue)
          else if tag = MIMPI_DEADLOCK_TAG then
            (RecvOutcome.ret Retcode.errorDeadlockDetected, s.receivedQueue)
          else
            (RecvOutcome.ret Retcode.errorRemoteFinished, s.receivedQueue)

/-! ## Collective call sequences (mimpi.c lines 436-515 and 934-989) -/

/-- One point-to-point call issued by communication_loop: a receive or a send
naming a peer. -/
inductive P2PCall where
  | recvOp (peer : Int)
  | sendOp (peer : Int)
deriving DecidableEq, Repr

/-- The sequence of point-to-point calls communication_loop issues
(mimpi.c lines 448-515), in order.  Setup per lines 457-469: the default
parent / first-child / step for a rank that is neither root nor 0, the root
case (power = 1, start_from = 1) and the rank-0 case (which plays the role of
the root's rank in the tree).  The root-swap relabelling of `receive_from`
(lines 482-487, 494-499) and the `helper` mapping of children (lines 473,
505) are applied.  `beginPhase` is the `begin` flag: receives from children
then send to parent when true; receive from parent then sends to children
when false. -/
def communication_loop_calls (root world_rank world_size : Int) (beginPhase : Bool) :
    List P2PCall :=
  let rf0 := world_rank - get_power world_rank
  let setup : Int × Int × Int :=
    if world_rank = root then (rf0, 1, 1)
    else if world_rank = 0 then
      (root - get_power root, get_power root * 2, root + get_power root * 2)
    else (rf0, get_power world_rank * 2, world_rank + get_power world_rank * 2)
  let receive_from := setup.1
  let power := setup.2.1
  let start_from := setup.2.2
  let rf := if receive_from = root then 0 else if receive_from = 0 then root
            else receive_from
  let kids := (children_aux 32 start_from power world_size).map
    (fun s => if s = root then 0 else s)
  if beginPhase then
    kids.map P2PCall.recvOp ++
      (if world_rank ≠ root then [P2PCall.sendOp rf] else [])
  else
    (if world_rank ≠ root then [P2PCall.recvOp rf] else []) ++
      kids.map P2PCall.sendOp

/-- Execution of a sequence of point-to-point calls under the
HANDLE_REMOTE_FINISHED macro (mimpi.c lines 30-34): the outcome of the i-th
executed call is `f i`; the first call returning
MIMPI_ERROR_REMOTE_FINISHED aborts the loop immediately.  Returns the loop's
return code and the index past the last executed call (= how many calls ran
overall). -/
def exec_calls : List P2PCall → (Nat → Retcode) → Nat → Retcode × Nat
  | [], _, i => (Retcode.success, i)
  | _ :: cs, f, i =>
      if f i = Retcode.errorRemoteFinished then (Retcode.errorRemoteFinished, i + 1)
      else exec_calls cs f (i + 1)

/-- The two-phase structure shared by MIMPI_Barrier (lines 934-941),
MIMPI_Bcast (lines 944-957) and MIMPI_Reduce (lines 960-989): run the
begin-phase communication_loop, return remote-finished immediately if it
does, else run the end-phase loop and return its result. -/
def two_phase_collective (root world_rank world_size : Int) (f : Nat → Retcode) :
    Retcode × Nat :=
  let r1 := exec_calls (communication_loop_calls root world_rank world_size true) f 0
  if r1.1 = Retcode.errorRemoteFinished then r1
  else exec_calls (communication_loop_calls root world_rank world_size false) f r1.2

/-- Total number of point-to-point calls a complete collective issues. -/
def total_calls (root world_rank world_size : Int) : Nat :=
  (communication_loop_calls root world_rank world_size true).length +
    (communication_loop_calls root world_rank world_size false).length

/-- MIMPI_Barrier (mimpi.c lines 934-941): the two phases with root 0 and the
NO_MESSAGE sentinel tag. -/
def MIMPI_Barrier_model (world_rank world_size : Int) (f : Nat → Retcode) :
    Retcode × Nat :=
  two_phase_collective 0 world_rank world_size f

/-- MIMPI_Bcast (mimpi.c lines 944-957): CHECK_RANK_ERROR on root (line 949),
then the two phases. -/
def MIMPI_Bcast_model (root world_rank world_size : Int) (f : Nat → Retcode) :
    Retcode × Nat :=
  if root < 0 ∨ world_size ≤ root then (Retcode.errorNoSuchRank, 0)
  else two_phase_collective root world_rank world_size f

/-- MIMPI_Reduce control flow (mimpi.c lines 960-989): CHECK_RANK_ERROR on
root (line 967), up-phase, early return on remote-finished (lines 977-980),
then the down-phase of sentinels. -/
def MIMPI_Reduce_model (root world_rank world_size : Int) (f : Nat → Retcode) :
    Retcode × Nat :=
  if root < 0 ∨ world_size ≤ root then (Retcode.errorNoSuchRank, 0)
  else two_phase_collective root world_rank world_size f

/-! ## Reduce buffer effects (mimpi.c lines 960-989) -/

/-- The three user-visible byte buffers of one MIMPI_Reduce call: the caller's
`send_data` and `recv_data`, and the private scratch `memory` allocated at
line 972. -/
structure ReduceStore where
  sendData : List Nat
  recvData : List Nat
  scratch : List Nat
deriving DecidableEq, Repr

/-- The buffer writes MIMPI_Reduce performs, in program order.  Every memcpy /
combine on the data path of the call is one constructor:
`copyScratchFromSend` is `memcpy(memory, send_data, count)` (line 975);
`combineScratch p tag` is one up-phase receive folding a child's contribution
into the scratch via handle_reduce_operation (line 977 -> MIMPI_Recv line
921); `copyRecvFromScratch` is `memcpy(recv_data, memory, count)` (line 983),
executed only at the root.  The down-phase (line 988) carries the NO_MESSAGE
sentinel and writes no buffer (MIMPI_Recv lines 884, 920-925 skip every copy
for that tag). -/
inductive ReduceWrite where
  | copyScratchFromSend
  | combineScratch (received : List Nat) (tag : Int)
  | copyRecvFromScratch
deriving DecidableEq, Repr

/-- Effect of one buffer write on the store. -/
def apply_write (st : ReduceStore) : ReduceWrite → ReduceStore
  | ReduceWrite.copyScratchFromSend => { st with scratch := st.sendData }
  | ReduceWrite.combineScratch p tag =>
      { st with scratch := handle_reduce_operation p tag st.scratch }
  | ReduceWrite.copyRecvFromScratch => { st with recvData := st.scratch }

/-- The write sequence of one MIMPI_Reduce call at a process receiving
`childContribs` from its children, with carrier tag `tag`, at the root iff
`isRoot`. -/
def reduce_writes (childContribs : List (List Nat)) (tag : Int) (isRoot : Bool) :
    List ReduceWrite :=
  ReduceWrite.copyScratchFromSend ::
    (childContribs.map (fun p => ReduceWrite.combineScratch p tag) ++
      (if isRoot then [ReduceWrite.copyRecvFromScratch] else []))

/-- Run a sequence of buffer writes. -/
def run_writes (st : ReduceStore) (ws : List ReduceWrite) : ReduceStore :=
  ws.foldl apply_write st

/-! ## Theorems -/

/-- Claim C1, counterexample: the spec computes neighbours from LP(k), the
largest power of two dividing k, but the code's get_power table is the
highest power of two not exceeding k.  At k = 3 the code's parent is
3 - get_power(3) = 1 while the claim's parent is 3 - LP(3) = 2; at k = 1,
W = 8 the code's children are [3, 5] while the claim enumerates
k + LP(k)·2^i from i = 0, giving [2, 3, 5]. -/
theorem C1_counterexample :
    loop_parent 3 = 1 ∧ 3 - spec_LP 3 = 2 ∧ loop_parent 3 ≠ 3 - spec_LP 3 ∧
    loop_children 1 8 = [3, 5] ∧ spec_children_LP 1 8 = [2, 3, 5] ∧
    loop_children 1 8 ≠ spec_children_LP 1 8 := by decide

/-- Claim C1 as amended: for every rank k with 0 < k < W ≤ 16 that is neither
the collective's root nor 0, the communication loop computes k's parent as
k - HP(k) and k's children as k + HP(k)·2^i for i = 1, 2, ... while still
< W, where HP(k) is the highest power of two not exceeding k, all before the
root-swap relabelling of ranks 0 and r. -/
theorem C1_neighbours (k world_size : Int) (h1 : 0 < k) (h2 : k < world_size)
    (h3 : world_size ≤ 16) :
    loop_parent k = k - (msb_power k.toNat : Int) ∧
    loop_children k world_size = spec_children_msb k world_size := by
  have hw : 2 ≤ world_size := by omega
  interval_cases world_size <;> interval_cases k <;> decide

/-- Witness for C1_neighbours at k = 3, W = 16. -/
theorem C1_witness :
    loop_parent 3 = 3 - (msb_power (3 : Int).toNat : Int) ∧
    loop_children 3 16 = spec_children_msb 3 16 :=
  C1_neighbours 3 16 (by decide) (by decide) (by decide)

/-- Claim C2, counterexample: compare_message does not restrict ANY_TAG
matching to non-negative tags — a filter with tag MIMPI_ANY_TAG matches a
queued message carrying the internal tag -2, which the claim forbids. -/
theorem C2_counterexample :
    compare_message ⟨-2, -1, 0⟩ ⟨MIMPI_ANY_TAG, -1, 0⟩ = true ∧
    spec_match ⟨-2, -1, 0⟩ ⟨MIMPI_ANY_TAG, -1, 0⟩ = false ∧
    (-2 : Int) < 0 := by decide

/-- Claim C2 as amended: the match predicate holds iff the sources are equal,
the counts are equal, and either the filter tag equals the message tag or the
filter tag is MIMPI_ANY_TAG — with no restriction on the sign of the queued
message's tag, so ANY_TAG also matches internal (negative) tags. -/
theorem C2_match_characterization (a b : Message) :
    compare_message a b = true ↔
      (a.source = b.source ∧ a.count = b.count ∧
        (b.tag = MIMPI_ANY_TAG ∨ a.tag = b.tag)) := by
  simp only [compare_message, Bool.and_eq_true, Bool.or_eq_true, beq_iff_eq]
  tauto

/-- Witness for C2_match_characterization at a concrete matching pair. -/
theorem C2_witness : compare_message ⟨7, 4, 2⟩ ⟨7, 4, 2⟩ = true :=
  (C2_match_characterization ⟨7, 4, 2⟩ ⟨7, 4, 2⟩).mpr ⟨rfl, rfl, Or.inr rfl⟩

/-- Claim C10: for every rank 0 ≤ k ≤ 15, get_power(k) is the highest power
of two not exceeding k (2 ^ ⌊log2 k⌋, with get_power(0) = 0), and hence the
parent k - get_power(k) computed by the communication loop is k with its most
significant set bit cleared (k mod 2 ^ ⌊log2 k⌋). -/
theorem C10_get_power (k : Int) (h1 : 0 ≤ k) (h2 : k ≤ 15) :
    get_power k = (msb_power k.toNat : Int) ∧
    (0 < k → (msb_power k.toNat : Int) ≤ k ∧ k < 2 * (msb_power k.toNat : Int)) ∧
    (0 < k → loop_parent k = ((k.toNat % msb_power k.toNat : Nat) : Int)) := by
  interval_cases k <;> decide

/-- Witness for C10_get_power at k = 5: get_power(5) = 4 and the parent of
rank 5 is 1. -/
theorem C10_witness : get_power 5 = ((msb_power (5 : Int).toNat : Nat) : Int) ∧
    loop_parent 5 = 1 := by
  refine ⟨(C10_get_power 5 (by decide) (by decide)).1, ?_⟩
  exact ((C10_get_power 5 (by decide) (by decide)).2.2 (by decide)).trans (by decide)

/-- Claim C3, counterexample: with deadlock detection enabled, a Recv naming
a peer that has already closed its channel can return deadlock-detected
rather than success or remote-finished — the deadlock branch of MIMPI_Recv
(lines 831-843) runs before the peer-closed test, and fires on a stale
WAITING notification left at the head of others_recv by the departed peer
(here one with tag ANY_TAG, left behind when the peer's ANY_TAG receive was
satisfied by a send whose exact tag did not equal the notification's). -/
theorem C3_counterexample :
    MIMPI_Recv_model 2 0 4 1 0
        ⟨[], [⟨-1, 4, 1⟩], true, true, true⟩ =
      (RecvOutcome.ret Retcode.errorDeadlockDetected, []) ∧
    Retcode.errorDeadlockDetected ≠ Retcode.success ∧
    Retcode.errorDeadlockDetected ≠ Retcode.errorRemoteFinished := by decide

/-- Claim C3 as amended: for every peer p with peer_closed[p] set, any Recv
naming p either dequeues the first message already queued for p that matches
its filter and returns success, or returns remote-finished, or — when the
deadlock branch fires on a stale WAITING notification from p (or the caller
passes the internal DEADLOCK tag) — returns deadlock-detected; it never
blocks forever, never returns success without consuming a queued matching
message, and leaves the queue untouched unless it returns success. -/
theorem C3_recv_after_peer_closed (world_size world_rank count source tag : Int)
    (s : RecvState) (hleft : s.alreadyLeft = true)
    (h1 : 0 ≤ source) (h2 : source < world_size) (h3 : source ≠ world_rank) :
    (MIMPI_Recv_model world_size world_rank count source tag s).1 ≠
      RecvOutcome.blocked ∧
    ((MIMPI_Recv_model world_size world_rank count source tag s).1 =
        RecvOutcome.ret Retcode.success ↔
      (find_elem_in_list s.receivedQueue ⟨tag, count, source⟩).isSome) ∧
    ((MIMPI_Recv_model world_size world_rank count source tag s).1 =
        RecvOutcome.ret Retcode.success →
      (MIMPI_Recv_model world_size world_rank count source tag s).2 =
        remove_first_match s.receivedQueue ⟨tag, count, source⟩) ∧
    ((MIMPI_Recv_model world_size world_rank count source tag s).1 =
        RecvOutcome.ret Retcode.success ∨
     (MIMPI_Recv_model world_size world_rank count source tag s).1 =
        RecvOutcome.ret Retcode.errorRemoteFinished ∨
     (MIMPI_Recv_model world_size world_rank count source tag s).1 =
        RecvOutcome.ret Retcode.errorDeadlockDetected) ∧
    ((MIMPI_Recv_model world_size world_rank count source tag s).1 ≠
        RecvOutcome.ret Retcode.success →
      (MIMPI_Recv_model world_size world_rank count source tag s).2 =
        s.receivedQueue) := by
  have hrank : ¬(source < 0 ∨ world_size ≤ source) := by omega
  unfold MIMPI_Recv_model
  rw [if_neg hrank, if_neg h3]
  cases hfind : find_elem_in_list s.receivedQueue ⟨tag, count, source⟩ with
  | some m => simp
  | none =>
      simp only [hleft, not_true_eq_false, if_false, Option.isSome_none]
      split
      · cases hh : s.othersRecv.head? with
        | some msg =>
            by_cases hmt : MIMPI_ANY_TAG ≤ msg.tag <;>
              by_cases hwk : s.writeOk <;>
                by_cases htd : tag = MIMPI_DEADLOCK_TAG <;>
                  simp [hmt, hwk, htd]
        | none =>
            by_cases hwk : s.writeOk <;>
              by_cases htd : tag = MIMPI_DEADLOCK_TAG <;> simp [hwk, htd]
      · by_cases htd : tag = MIMPI_DEADLOCK_TAG <;> simp [htd]

/-- Witness for C3_recv_after_peer_closed: peer 1 closed, one matching
message queued; the call does not block and the success outcome is
characterized by the queue scan. -/
theorem C3_witness :
    (MIMPI_Recv_model 2 0 4 1 0 ⟨[⟨0, 4, 1⟩], [], true, true, true⟩).1 ≠
      RecvOutcome.blocked ∧
    (MIMPI_Recv_model 2 0 4 1 0 ⟨[⟨0, 4, 1⟩], [], true, true, true⟩).1 =
      RecvOutcome.ret Retcode.success :=
  ⟨(C3_recv_after_peer_closed 2 0 4 1 0 ⟨[⟨0, 4, 1⟩], [], true, true, true⟩
      rfl (by decide) (by decide) (by decide)).1, by decide⟩

/-- Lanewise action of handle_reduce_operation on replicated buffers. -/
theorem handle_reduce_replicate (n a b : Nat) (tag : Int) :
    handle_reduce_operation (List.replicate n b) tag (List.replicate n a) =
      List.replicate n (reduce_combine tag a b) := by
  induction n with
  | zero => rfl
  | succ n ih =>
      simp [handle_reduce_operation, List.replicate_succ]

/-- Folding m all-`1` contributions into a replicated accumulator with the
SUM carrier adds m to every lane, modulo 256. -/
theorem reduce_fold_ones (n m c : Nat) (hc : c < 256) :
    reduce_fold MIMPI_SUM_TAG (List.replicate m (List.replicate n 1))
        (List.replicate n c) =
      List.replicate n ((c + m) % 256) := by
  induction m generalizing c with
  | zero =>
      simp [reduce_fold, Nat.mod_eq_of_lt hc]
  | succ m ih =>
      rw [List.replicate_succ]
      simp only [reduce_fold, List.foldl_cons]
      have h1 : handle_reduce_operation (List.replicate n 1) MIMPI_SUM_TAG
          (List.replicate n c) = List.replicate n ((c + 1) % 256) := by
        rw [handle_reduce_replicate]
        rfl
      rw [h1]
      have h2 := ih ((c + 1) % 256) (Nat.mod_lt _ (by omega))
      rw [reduce_fold] at h2
      rw [h2]
      congr 1
      omega

/-- Claim C4: the reduce combine step is componentwise on unsigned 8-bit
lanes — MAX takes the per-lane maximum, MIN the minimum, SUM adds modulo 256
and PROD multiplies modulo 256 — and folding W contributions of the all-ones
byte vector with SUM yields the vector whose every lane is W mod 256. -/
theorem C4_reduce_semantics (world n : Nat) (hw : 1 ≤ world) :
    (∀ d r : List Nat,
       handle_reduce_operation r MIMPI_MAX_TAG d =
         List.zipWith (fun a b => max a b) d r ∧
       handle_reduce_operation r MIMPI_MIN_TAG d =
         List.zipWith (fun a b => min a b) d r ∧
       handle_reduce_operation r MIMPI_SUM_TAG d =
         List.zipWith (fun a b => (a + b) % 256) d r ∧
       handle_reduce_operation r MIMPI_PROD_TAG d =
         List.zipWith (fun a b => (a * b) % 256) d r) ∧
    reduce_fold MIMPI_SUM_TAG
        (List.replicate (world - 1) (List.replicate n 1)) (List.replicate n 1) =
      List.replicate n (world % 256) := by
  constructor
  · intro d r
    exact ⟨rfl, rfl, rfl, rfl⟩
  · rw [reduce_fold_ones n (world - 1) 1 (by omega)]
    congr 1
    omega

/-- Witness for C4_reduce_semantics at W = 4, n = 3, matching spec scenario
4 run with all-ones contributions. -/
theorem C4_witness :
    reduce_fold MIMPI_SUM_TAG
        (List.replicate 3 (List.replicate 3 1)) (List.replicate 3 1) =
      List.replicate 3 (4 % 256) :=
  (C4_reduce_semantics 4 3 (by decide)).2

/-- Running a call list none of whose executed calls reports remote-finished
completes it and returns success. -/
theorem exec_calls_no_rf (cs : List P2PCall) (f : Nat → Retcode) (i : Nat)
    (h : ∀ j, i ≤ j → j < i + cs.length → f j ≠ Retcode.errorRemoteFinished) :
    exec_calls cs f i = (Retcode.success, i + cs.length) := by
  induction cs generalizing i with
  | nil => simp [exec_calls]
  | cons c cs ih =>
      rw [exec_calls, if_neg (h i le_rfl (by simp))]
      rw [ih (i + 1) (fun j hj1 hj2 => h j (by omega) (by simp at hj2 ⊢; omega))]
      simp
      omega

/-- Running a call list whose first remote-finished outcome is at relative
position j aborts right after that call. -/
theorem exec_calls_first_rf (cs : List P2PCall) (f : Nat → Retcode) (i j : Nat)
    (hj : j < cs.length) (hrf : f (i + j) = Retcode.errorRemoteFinished)
    (hmin : ∀ t, t < j → f (i + t) ≠ Retcode.errorRemoteFinished) :
    exec_calls cs f i = (Retcode.errorRemoteFinished, i + j + 1) := by
  induction cs generalizing i j with
  | nil => simp at hj
  | cons c cs ih =>
      cases j with
      | zero =>
          rw [exec_calls, if_pos (by simpa using hrf)]
      | succ j =>
          have h0 : f i ≠ Retcode.errorRemoteFinished := by
            have := hmin 0 (Nat.succ_pos j)
            simpa using this
          rw [exec_calls, if_neg h0]
          rw [ih (i + 1) j (by simpa using hj)
            (by rw [show i + 1 + j = i + (j + 1) by omega]; exact hrf)
            (fun t ht => by
              rw [show i + 1 + t = i + (t + 1) by omega]
              exact hmin (t + 1) (by omega))]
          congr 1
          omega

/-- A two-phase collective with no remote-finished outcome among its calls
runs all of them and returns success. -/
theorem two_phase_no_rf (root world_rank world_size : Int) (f : Nat → Retcode)
    (h : ∀ i, i < total_calls root world_rank world_size →
      f i ≠ Retcode.errorRemoteFinished) :
    two_phase_collective root world_rank world_size f =
      (Retcode.success, total_calls root world_rank world_size) := by
  unfold two_phase_collective total_calls at *
  rw [exec_calls_no_rf _ f 0 (fun j _ hj => h j (by omega))]
  simp only [Nat.zero_add]
  rw [if_neg (by simp)]
  rw [exec_calls_no_rf _ f _ (fun j hj1 hj2 => h j (by omega))]

/-- A two-phase collective whose first remote-finished outcome is call j
returns remote-finished having executed exactly j + 1 calls. -/
theorem two_phase_first_rf (root world_rank world_size : Int) (f : Nat → Retcode)
    (j : Nat) (hj : j < total_calls root world_rank world_size)
    (hrf : f j = Retcode.errorRemoteFinished)
    (hmin : ∀ t, t < j → f t ≠ Retcode.errorRemoteFinished) :
    two_phase_collective root world_rank world_size f =
      (Retcode.errorRemoteFinished, j + 1) := by
  unfold two_phase_collective total_calls at *
  by_cases hcase :
      j < (communication_loop_calls root world_rank world_size true).length
  · rw [exec_calls_first_rf _ f 0 j hcase (by simpa using hrf)
      (fun t ht => by simpa using hmin t ht)]
    simp
  · rw [exec_calls_no_rf _ f 0 (fun t _ ht => hmin t (by omega))]
    simp only [Nat.zero_add]
    rw [if_neg (by simp)]
    rw [exec_calls_first_rf _ f _
      (j - (communication_loop_calls root world_rank world_size true).length)
      (by omega)
      (by rw [show (communication_loop_calls root world_rank world_size true).length +
          (j - (communication_loop_calls root world_rank world_size true).length) = j
          by omega]; exact hrf)
      (fun t ht => hmin _ (by omega))]
    congr 1
    omega

/-- Claim C5: for every collective (Barrier, Bcast, Reduce with a valid
root), if the i-th constituent point-to-point call is the first to return
remote-finished, the collective returns remote-finished immediately, having
executed exactly i + 1 of its point-to-point calls; if no executed call
returns remote-finished, the collective runs all of its calls and returns
success. -/
theorem C5_collectives_propagate_rf (root world_rank world_size : Int)
    (f : Nat → Retcode) (hroot1 : 0 ≤ root) (hroot2 : root < world_size) :
    ((∀ i, i < total_calls 0 world_rank world_size →
        f i ≠ Retcode.errorRemoteFinished) →
      MIMPI_Barrier_model world_rank world_size f =
        (Retcode.success, total_calls 0 world_rank world_size)) ∧
    (∀ j, j < total_calls 0 world_rank world_size →
      f j = Retcode.errorRemoteFinished →
      (∀ t, t < j → f t ≠ Retcode.errorRemoteFinished) →
      MIMPI_Barrier_model world_rank world_size f =
        (Retcode.errorRemoteFinished, j + 1)) ∧
    ((∀ i, i < total_calls root world_rank world_size →
        f i ≠ Retcode.errorRemoteFinished) →
      MIMPI_Bcast_model root world_rank world_size f =
        (Retcode.success, total_calls root world_rank world_size)) ∧
    (∀ j, j < total_calls root world_rank world_size →
      f j = Retcode.errorRemoteFinished →
      (∀ t, t < j → f t ≠ Retcode.errorRemoteFinished) →
      MIMPI_Bcast_model root world_rank world_size f =
        (Retcode.errorRemoteFinished, j + 1)) ∧
    ((∀ i, i < total_calls root world_rank world_size →
        f i ≠ Retcode.errorRemoteFinished) →
      MIMPI_Reduce_model root world_rank world_size f =
        (Retcode.success, total_calls root world_rank world_size)) ∧
    (∀ j, j < total_calls root world_rank world_size →
      f j = Retcode.errorRemoteFinished →
      (∀ t, t < j → f t ≠ Retcode.errorRemoteFinished) →
      MIMPI_Reduce_model root world_rank world_size f =
        (Retcode.errorRemoteFinished, j + 1)) := by
  have hv : ¬(root < 0 ∨ world_size ≤ root) := by omega
  refine ⟨fun h => two_phase_no_rf 0 world_rank world_size f h,
    fun j hj hrf hmin => two_phase_first_rf 0 world_rank world_size f j hj hrf hmin,
    fun h => ?_, fun j hj hrf hmin => ?_, fun h => ?_, fun j hj hrf hmin => ?_⟩
  · unfold MIMPI_Bcast_model
    rw [if_neg hv]
    exact two_phase_no_rf root world_rank world_size f h
  · unfold MIMPI_Bcast_model
    rw [if_neg hv]
    exact two_phase_first_rf root world_rank world_size f j hj hrf hmin
  · unfold MIMPI_Reduce_model
    rw [if_neg hv]
    exact two_phase_no_rf root world_rank world_size f h
  · unfold MIMPI_Reduce_model
    rw [if_neg hv]
    exact two_phase_first_rf root world_rank world_size f j hj hrf hmin

/-- Witness for C5_collectives_propagate_rf: Barrier at rank 1 of a world of
4 succeeds after all 4 of its calls when nothing fails, and aborts after its
first call when that call reports remote-finished. -/
theorem C5_witness :
    MIMPI_Barrier_model 1 4 (fun _ => Retcode.success) =
      (Retcode.success, total_calls 0 1 4) ∧
    MIMPI_Barrier_model 1 4
        (fun i => if i = 0 then Retcode.errorRemoteFinished else Retcode.success) =
      (Retcode.errorRemoteFinished, 1) := by
  constructor
  · exact (C5_collectives_propagate_rf 0 1 4 (fun _ => Retcode.success)
      (by decide) (by decide)).1 (fun i _ => by decide)
  · exact (C5_collectives_propagate_rf 0 1 4
      (fun i => if i = 0 then Retcode.errorRemoteFinished else Retcode.success)
      (by decide) (by decide)).2.1 0 (by decide) (by decide)
      (fun t ht => absurd ht (by omega))

/-- Claim C6: Send and Recv return no-such-rank for a rank outside [0, W)
before any communication, self-op for the caller's own rank before any
communication, and Bcast / Reduce return no-such-rank for a root outside
[0, W). -/
theorem C6_rank_errors (world_size world_rank destination source root tag count :
      Int) (payload : List Nat) (writeOk : Bool) (s : RecvState)
    (f : Nat → Retcode) :
    ((destination < 0 ∨ world_size ≤ destination) →
      MIMPI_Send_model world_size world_rank destination tag count payload writeOk =
        (Retcode.errorNoSuchRank, [])) ∧
    (0 ≤ destination → destination < world_size → destination = world_rank →
      MIMPI_Send_model world_size world_rank destination tag count payload writeOk =
        (Retcode.errorAttemptedSelfOp, [])) ∧
    ((source < 0 ∨ world_size ≤ source) →
      MIMPI_Recv_model world_size world_rank count source tag s =
        (RecvOutcome.ret Retcode.errorNoSuchRank, s.receivedQueue)) ∧
    (0 ≤ source → source < world_size → source = world_rank →
      MIMPI_Recv_model world_size world_rank count source tag s =
        (RecvOutcome.ret Retcode.errorAttemptedSelfOp, s.receivedQueue)) ∧
    ((root < 0 ∨ world_size ≤ root) →
      MIMPI_Bcast_model root world_rank world_size f =
        (Retcode.errorNoSuchRank, 0) ∧
      MIMPI_Reduce_model root world_rank world_size f =
        (Retcode.errorNoSuchRank, 0)) := by
  refine ⟨fun h => ?_, fun ha hb hc => ?_, fun h => ?_, fun ha hb hc => ?_,
    fun h => ⟨?_, ?_⟩⟩
  · unfold MIMPI_Send_model
    rw [if_pos h]
  · unfold MIMPI_Send_model
    rw [if_neg (by omega), if_pos hc]
  · unfold MIMPI_Recv_model
    rw [if_pos h]
  · unfold MIMPI_Recv_model
    rw [if_neg (by omega), if_pos hc]
  · unfold MIMPI_Bcast_model
    rw [if_pos h]
  · unfold MIMPI_Reduce_model
    rw [if_pos h]

/-- Witness for C6_rank_errors: destination 7 in a world of 4 is rejected,
sending to oneself is rejected, a negative source is rejected, and Bcast /
Reduce reject root 5. -/
theorem C6_witness :
    MIMPI_Send_model 4 0 7 0 3 [] true = (Retcode.errorNoSuchRank, []) ∧
    MIMPI_Send_model 4 2 2 0 3 [] true = (Retcode.errorAttemptedSelfOp, []) ∧
    MIMPI_Recv_model 4 0 3 (-1) 0 ⟨[], [], true, true, true⟩ =
      (RecvOutcome.ret Retcode.errorNoSuchRank, []) ∧
    MIMPI_Bcast_model 5 0 4 (fun _ => Retcode.success) =
      (Retcode.errorNoSuchRank, 0) :=
  ⟨(C6_rank_errors 4 0 7 (-1) 5 0 3 [] true ⟨[], [], true, true, true⟩
      (fun _ => Retcode.success)).1 (Or.inr (by decide)),
   (C6_rank_errors 4 2 2 (-1) 5 0 3 [] true ⟨[], [], true, true, true⟩
      (fun _ => Retcode.success)).2.1 (by decide) (by decide) rfl,
   (C6_rank_errors 4 0 7 (-1) 5 0 3 [] true ⟨[], [], true, true, true⟩
      (fun _ => Retcode.success)).2.2.1 (Or.inl (by decide)),
   ((C6_rank_errors 4 0 7 (-1) 5 0 3 [] true ⟨[], [], true, true, true⟩
      (fun _ => Retcode.success)).2.2.2.2 (Or.inr (by decide))).1⟩

/-- Decoding inverts encoding for every value representable in a 32-bit C
int. -/
theorem read_int32_encode (x : Int) (rest : List Nat)
    (h1 : -2147483648 ≤ x) (h2 : x < 2147483648) :
    read_int32 (encode_int32 x ++ rest) = some (x, rest) := by
  have hn1 : 0 ≤ x % 4294967296 := Int.emod_nonneg x (by norm_num)
  have hn2 : x % 4294967296 < 4294967296 := Int.emod_lt_of_pos x (by norm_num)
  show some (decode_int32 _ _ _ _, rest) = some (x, rest)
  unfold decode_int32
  have hsum : (x % 4294967296).toNat % 256 +
      256 * ((x % 4294967296).toNat / 256 % 256) +
      65536 * ((x % 4294967296).toNat / 65536 % 256) +
      16777216 * ((x % 4294967296).toNat / 16777216 % 256) =
      (x % 4294967296).toNat := by omega
  rw [hsum]
  split_ifs with hcase <;> simp only [Option.some.injEq, Prod.mk.injEq,
    and_true] <;> omega

/-- Claim C7: every frame MIMPI_Send writes is an 8-byte header — count then
tag, each 4 bytes — followed by exactly count payload bytes iff the tag is
payload-bearing; frames tagged NO_MESSAGE (-2) or DEADLOCK (-4) carry the
header only, and the reader decodes frames under the same layout, consuming
a count-byte body exactly when the tag is neither NO_MESSAGE nor DEADLOCK. -/
theorem C7_frame_layout (count tag : Int) (payload rest : List Nat)
    (hc1 : -2147483648 ≤ count) (hc2 : count < 2147483648)
    (ht1 : -2147483648 ≤ tag) (ht2 : tag < 2147483648)
    (hlen : payload.length = count.toNat) :
    (send_frame count tag payload).length =
      8 + (if payload_bearing tag then count.toNat else 0) ∧
    read_frame (send_frame count tag payload ++ rest) =
      some (count, tag, (if payload_bearing tag then some payload else none),
        rest) ∧
    payload_bearing MIMPI_NO_MESSAGE_TAG = false ∧
    payload_bearing MIMPI_DEADLOCK_TAG = false ∧
    (tag ≠ MIMPI_NO_MESSAGE_TAG → tag ≠ MIMPI_DEADLOCK_TAG →
      payload_bearing tag = true) := by
  refine ⟨?_, ?_, by decide, by decide, fun hn hd => ?_⟩
  · cases hb : payload_bearing tag
    · simp [send_frame, hb, encode_int32, hlen]
    · simp [send_frame, hb, encode_int32, hlen]
      omega
  · cases hb : payload_bearing tag
    · unfold send_frame
      rw [hb, if_neg (by simp)]
      unfold read_frame
      rw [List.append_assoc, read_int32_encode count _ hc1 hc2]
      simp only [Option.some_bind]
      rw [read_int32_encode tag rest ht1 ht2]
      simp [hb]
    · unfold send_frame
      rw [hb, if_pos rfl]
      unfold read_frame
      rw [List.append_assoc, List.append_assoc,
        read_int32_encode count _ hc1 hc2]
      simp only [Option.some_bind]
      rw [read_int32_encode tag (payload ++ rest) ht1 ht2]
      simp only [Option.some_bind, hb, if_true]
      rw [if_pos (by simp [← hlen]), ← hlen, List.take_left, List.drop_left]
  · simp [payload_bearing, hn, hd]

/-- Witness for C7_frame_layout: a 3-byte user frame with tag 0 round-trips,
and its frame is 11 bytes. -/
theorem C7_witness :
    (send_frame 3 0 [65, 66, 67]).length =
      8 + (if payload_bearing 0 then (3 : Int).toNat else 0) ∧
    read_frame (send_frame 3 0 [65, 66, 67] ++ [9]) =
      some (3, 0, (if payload_bearing 0 then some [65, 66, 67] else none),
        [9]) := by
  have h := C7_frame_layout 3 0 [65, 66, 67] [9] (by decide) (by decide)
    (by decide) (by decide) (by decide)
  exact ⟨h.1, h.2.1⟩

/-- No buffer write of a Reduce call ever touches send_data. -/
theorem run_writes_sendData (ws : List ReduceWrite) (st : ReduceStore) :
    (run_writes st ws).sendData = st.sendData := by
  induction ws generalizing st with
  | nil => rfl
  | cons w ws ih =>
      show (run_writes (apply_write st w) ws).sendData = st.sendData
      rw [ih]
      cases w <;> rfl

/-- A write sequence not containing the copy-to-recv step leaves recv_data
untouched. -/
theorem run_writes_recvData (ws : List ReduceWrite) (st : ReduceStore)
    (h : ReduceWrite.copyRecvFromScratch ∉ ws) :
    (run_writes st ws).recvData = st.recvData := by
  induction ws generalizing st with
  | nil => rfl
  | cons w ws ih =>
      show (run_writes (apply_write st w) ws).recvData = st.recvData
      rw [ih _ (fun hm => h (List.mem_cons_of_mem w hm))]
      cases w with
      | copyScratchFromSend => rfl
      | combineScratch p tag => rfl
      | copyRecvFromScratch => exact absurd (List.mem_cons_self _ _) h

/-- Running the up-phase combine writes folds the children contributions
into the scratch and touches nothing else. -/
theorem run_writes_combines (ps : List (List Nat)) (tag : Int)
    (st : ReduceStore) :
    run_writes st (ps.map (fun p => ReduceWrite.combineScratch p tag)) =
      { st with scratch := reduce_fold tag ps st.scratch } := by
  induction ps generalizing st with
  | nil => simp [run_writes, reduce_fold]
  | cons p ps ih =>
      show run_writes (apply_write st (ReduceWrite.combineScratch p tag)) _ = _
      rw [ih]
      simp [apply_write, reduce_fold]

/-- Claim C8: any prefix of the buffer writes of a MIMPI_Reduce call (so any
execution, including ones cut short by remote-finished) leaves send_data
byte-for-byte unchanged and, at a non-root process, leaves recv_data
byte-for-byte unchanged; the complete run at the root stores in recv_data
the fold of the scratch copy of send_data with the children's
contributions. -/
theorem C8_reduce_buffers (st : ReduceStore) (childContribs : List (List Nat))
    (tag : Int) (isRoot : Bool) (k : Nat) :
    (run_writes st ((reduce_writes childContribs tag isRoot).take k)).sendData =
      st.sendData ∧
    (isRoot = false →
      (run_writes st ((reduce_writes childContribs tag isRoot).take k)).recvData =
        st.recvData) ∧
    (isRoot = true →
      (run_writes st (reduce_writes childContribs tag true)).recvData =
        reduce_fold tag childContribs st.sendData) := by
  refine ⟨run_writes_sendData _ st, fun hroot => ?_, fun _ => ?_⟩
  · refine run_writes_recvData _ st (fun hm => ?_)
    have hm2 := List.mem_of_mem_take hm
    rw [hroot] at hm2
    simp [reduce_writes] at hm2
  · show (run_writes (apply_write st ReduceWrite.copyScratchFromSend)
      ((childContribs.map (fun p => ReduceWrite.combineScratch p tag)) ++
        [ReduceWrite.copyRecvFromScratch])).recvData = _
    rw [run_writes, List.foldl_append, ← run_writes, ← run_writes,
      run_writes_combines]
    rfl

/-- Witness for C8_reduce_buffers matching spec scenario 4 at the root of a
world of 4: contributions [1,1,1], [2,2,2], [3,3,3] folded with SUM into a
send buffer of [0,0,0] put [6,6,6] into recv_data, and send_data is
untouched. -/
theorem C8_witness :
    (run_writes ⟨[0, 0, 0], [9, 9, 9], [5, 5, 5]⟩
        (reduce_writes [[1, 1, 1], [2, 2, 2], [3, 3, 3]] MIMPI_SUM_TAG
          true)).recvData = [6, 6, 6] ∧
    (run_writes ⟨[0, 0, 0], [9, 9, 9], [5, 5, 5]⟩
        ((reduce_writes [[1, 1, 1], [2, 2, 2], [3, 3, 3]] MIMPI_SUM_TAG
          true).take 2)).sendData = [0, 0, 0] := by
  have h := C8_reduce_buffers ⟨[0, 0, 0], [9, 9, 9], [5, 5, 5]⟩
    [[1, 1, 1], [2, 2, 2], [3, 3, 3]] MIMPI_SUM_TAG true 2
  exact ⟨(h.2.2 rfl).trans (by decide), h.1⟩

end MIMPI

